import Mathlib

/-!
# Verification of the `.py` upload service

A shallow embedding of the upload application's validation, orchestration,
controller and client-widget logic.  JavaScript strings are modelled as
`List Char`; byte counts as `Nat`; the effectful storage / database SDK is
modelled by passing its per-call outcomes explicitly and recording the side
effects the code performs as a trace of actions.
-/

set_option maxRecDepth 4000

/-- Model of JavaScript `String.prototype.toLowerCase`, restricted to the
character-wise lowering that agrees with it on ASCII data (all names the
rules compare are ASCII). -/
def toLowerCase (s : List Char) : List Char := s.map Char.toLower

/-- Model of JavaScript `String.prototype.endsWith`. -/
def jsEndsWith (s suffix : List Char) : Bool := decide (suffix <:+ s)

namespace Node

/-- Scanner state of Node's `path.extname` (posix implementation): indices
`startDot`, `startPart`, `endIdx` and the `preDotState` flag, exactly the
local variables of the Node source, with `-1` denoting "unset". -/
structure ExtState where
  startDot : Int
  startPart : Int
  endIdx : Int
  matchedSlash : Bool
  preDotState : Int
deriving DecidableEq

/-- One non-separator character of the `path.extname` scan at index `i`:
first the `end`-marking step, then the dot / non-dot bookkeeping, exactly
as in the body of Node's loop. -/
def extStep (i : Nat) (c : Char) (st : ExtState) : ExtState :=
  let st1 := if st.endIdx = -1 then { st with matchedSlash := false, endIdx := (i : Int) + 1 } else st
  if c = '.' then
    if st1.startDot = -1 then { st1 with startDot := (i : Int) }
    else if st1.preDotState = 1 then st1
    else { st1 with preDotState := 1 }
  else
    if st1.startDot = -1 then st1 else { st1 with preDotState := -1 }

/-- The right-to-left scan of Node's `path.extname`: the `Nat` argument is
one past the index about to be examined; a separator met after real
characters stops the scan (the `break` of the source). -/
def extnameLoop (cs : List Char) : Nat → ExtState → ExtState
  | 0, st => st
  | i+1, st =>
    if cs.getD i ' ' = '/' then
      if st.matchedSlash then extnameLoop cs i st
      else { st with startPart := (i : Int) + 1 }
    else extnameLoop cs i (extStep i (cs.getD i ' ') st)

/-- Model of Node `path.extname` (posix): run the scan over the whole name
and slice out the extension unless one of the four emptiness conditions of
the Node source holds. -/
def extname (name : List Char) : List Char :=
  let st := extnameLoop name name.length
    { startDot := -1, startPart := 0, endIdx := -1, matchedSlash := true, preDotState := 0 }
  if st.startDot = -1 ∨ st.endIdx = -1 ∨ st.preDotState = 0 ∨
      (st.preDotState = 1 ∧ st.startDot = st.endIdx - 1 ∧ st.startDot = st.startPart + 1) then
    []
  else
    (name.drop st.startDot.toNat).take (st.endIdx.toNat - st.startDot.toNat)

end Node

namespace Backend

/-- `MAX_FILE_SIZE` of `services/fileService.ts` (richer variant): 5 MiB. -/
def MAX_FILE_SIZE : Nat := 5 * 1024 * 1024

/-- `ALLOWED_EXTENSION` of `services/fileService.ts`. -/
def ALLOWED_EXTENSION : List Char := ".py".data

/-- The data carried by each `FileValidationError` thrown by `validateFile`.
`extensionError received` renders as
`"Only .py files are allowed. Received: <received>"`; `sizeError s` renders
the received size in MB to two decimals; `emptyError` is "File is empty". -/
inductive ServerVError where
  | extensionError (received : List Char)
  | sizeError (sizeBytes : Nat)
  | emptyError
deriving DecidableEq

/-- `validateFile` of `services/fileService.ts`: extension via
`path.extname(...).toLowerCase()`, then the 5 MiB ceiling, then
non-emptiness; `none` means the function returns without throwing. -/
def validateFile (originalName : List Char) (sizeBytes : Nat) : Option ServerVError :=
  let ext := toLowerCase (Node.extname originalName)
  if ext ≠ ALLOWED_EXTENSION then
    some (.extensionError (if ext = [] then "no extension".data else ext))
  else if sizeBytes > MAX_FILE_SIZE then
    some (.sizeError sizeBytes)
  else if sizeBytes = 0 then
    some .emptyError
  else
    none

end Backend

namespace Hook

/-- `MAX_FILE_SIZE` of `hooks/useFileUpload.ts`. -/
def MAX_FILE_SIZE : Nat := 5 * 1024 * 1024

/-- The three error messages `validateClientSide` can return.  `notPy`
renders as `"Only .py files are allowed"`, `tooLarge s` renders the size
in MB to two decimals inside `"File exceeds 5 MB limit (...)"`, `empty`
as `"File is empty"`. -/
inductive ClientError where
  | notPy
  | tooLarge (sizeBytes : Nat)
  | empty
deriving DecidableEq

/-- Model of the JavaScript `(sizeBytes / (1024 * 1024)).toFixed(2)`
rendering: `sizeBytes / 2^20` is exact in double precision (a plain
exponent shift of an integer below `2^53`), and `toFixed(2)` then picks
the integer numerator over 100 closest to it, ties toward the larger, per
ECMA-262 — i.e. `⌊(sizeBytes·200 + 2^20) / 2^21⌋` hundredths. -/
def toFixed2MB (sizeBytes : Nat) : List Char :=
  let n := (sizeBytes * 200 + 1048576) / 2097152
  Nat.toDigits 10 (n / 100) ++
    ['.', Char.ofNat (48 + n % 100 / 10), Char.ofNat (48 + n % 100 % 10)]

/-- The message string each `ClientError` renders to in
`validateClientSide`. -/
def ClientError.message : ClientError → List Char
  | .notPy => "Only .py files are allowed".data
  | .tooLarge s => "File exceeds 5 MB limit (".data ++ toFixed2MB s ++ " MB)".data
  | .empty => "File is empty".data

/-- `validateClientSide` of `hooks/useFileUpload.ts`: a case-sensitive
`file.name.endsWith('.py')` test, then the 5 MiB ceiling, then
non-emptiness; `none` is the `null` (accept) result. -/
def validateClientSide (name : List Char) (size : Nat) : Option ClientError :=
  if ¬ jsEndsWith name ".py".data then some .notPy
  else if size > MAX_FILE_SIZE then some (.tooLarge size)
  else if size = 0 then some .empty
  else none

end Hook

namespace UploadUtil

/-- `MAX_FILE_SIZE` of `utils/uploadFile.ts`. -/
def MAX_FILE_SIZE : Nat := 5 * 1024 * 1024

/-- `validatePythonFile` of `utils/uploadFile.ts`: a case-insensitive
suffix test and the size ceiling only — it has no emptiness rule; `none`
is the `null` (accept) result, `some msg` the literal returned message. -/
def validatePythonFile (name : List Char) (size : Nat) : Option (List Char) :=
  if ¬ jsEndsWith (toLowerCase name) ".py".data then some "Only .py files are allowed".data
  else if size > MAX_FILE_SIZE then some "File size must be 5 MB or less".data
  else none

end UploadUtil

/-- The rule a validation outcome violates, used to compare the three
validators at the granularity the spec talks about (extension / size /
emptiness), abstracting from message formatting. -/
inductive VRule where
  | extension
  | size
  | empty
deriving DecidableEq

/-- Classify a server validation outcome by violated rule. -/
def serverRule : Option Backend.ServerVError → Option VRule
  | none => none
  | some (.extensionError _) => some .extension
  | some (.sizeError _) => some .size
  | some .emptyError => some .empty

/-- Classify a `validateClientSide` outcome by violated rule. -/
def clientSideRule : Option Hook.ClientError → Option VRule
  | none => none
  | some .notPy => some .extension
  | some (.tooLarge _) => some .size
  | some .empty => some .empty

/-- Classify a `validatePythonFile` outcome by violated rule (it returns
only its two literal messages, and has no emptiness rule). -/
def pyFileMsgRule : Option (List Char) → Option VRule
  | none => none
  | some m => if m = "Only .py files are allowed".data then some .extension else some .size

namespace Backend

/-- A record of the `files` table, as returned by `uploadFile` on success
(the row echoed by `.insert(...).select().single()`, whose `uploaded_at`
is assigned by the store). -/
structure FileRecord where
  id : List Char
  userId : List Char
  fileName : List Char
  storagePath : List Char
  sizeBytes : Nat
  uploadedAt : List Char
deriving DecidableEq

/-- The exception `uploadFile` can throw: a `FileValidationError` from
`validateFile`, the `Error("Storage upload failed: <msg>")` after a failed
blob transfer, or the `Error("Database insert failed: <msg>")` after a
failed metadata insert. -/
inductive UploadError where
  | validation (e : ServerVError)
  | storage (sdkMsg : List Char)
  | database (sdkMsg : List Char)
deriving DecidableEq

/-- One side-effecting SDK call made by `uploadFile`, in program order. -/
inductive Action where
  | storageUpload (path : List Char)
  | dbInsert (id userId fileName storagePath : List Char) (sizeBytes : Nat)
  | storageRemove (path : List Char)
deriving DecidableEq

/-- The outcome each external SDK call would report during one call of
`uploadFile`: `some msg` is the `error` object the supabase client returns
(it reports failures as data, it does not throw), `none` is success.
`removeError` is the outcome of the compensating `remove`; `uploadedAt`
the store-assigned timestamp echoed on a successful insert. -/
structure BackendOutcome where
  storageError : Option (List Char)
  dbError : Option (List Char)
  removeError : Option (List Char)
  uploadedAt : List Char
deriving DecidableEq

/-- The storage key `uploadFile` computes:
`` `${userId}/${uniqueId}${path.extname(originalName)}` ``. -/
def storagePathFor (userId uniqueId originalName : List Char) : List Char :=
  userId ++ ['/'] ++ uniqueId ++ Node.extname originalName

/-- `uploadFile` of `services/fileService.ts` (richer variant), with the
random `crypto.randomUUID()` value and the SDK outcomes passed explicitly.
Returns the thrown error or the returned record, together with the trace
of SDK calls performed.  The result of the compensating `remove` is never
read by the source, so `removeError` is never consulted. -/
def uploadFile (be : BackendOutcome) (uniqueId userId originalName : List Char)
    (bufferLen : Nat) : Except UploadError FileRecord × List Action :=
  match validateFile originalName bufferLen with
  | some e => (.error (.validation e), [])
  | none =>
    let storagePath := storagePathFor userId uniqueId originalName
    match be.storageError with
    | some msg => (.error (.storage msg), [.storageUpload storagePath])
    | none =>
      match be.dbError with
      | some msg =>
        (.error (.database msg),
         [.storageUpload storagePath,
          .dbInsert uniqueId userId originalName storagePath bufferLen,
          .storageRemove storagePath])
      | none =>
        (.ok { id := uniqueId, userId := userId, fileName := originalName,
               storagePath := storagePath, sizeBytes := bufferLen,
               uploadedAt := be.uploadedAt },
         [.storageUpload storagePath,
          .dbInsert uniqueId userId originalName storagePath bufferLen])

end Backend

namespace SimpleBackend

/-- `UploadResult` of the simpler variant's `services/fileService.ts`. -/
structure UploadResult where
  storagePath : List Char
  filename : List Char
  sizeBytes : Nat
deriving DecidableEq

/-- The single SDK outcome `uploadFileToStorage` depends on. -/
structure SimpleOutcome where
  storageError : Option (List Char)
deriving DecidableEq

/-- `uploadFileToStorage` of the simpler variant: key
`` `${userId}/${crypto.randomUUID()}_${file.originalname}` ``, then the
blob upload; the thrown message on failure, the `UploadResult` on
success. -/
def uploadFileToStorage (oc : SimpleOutcome) (uuid originalname : List Char)
    (size : Nat) (userId : List Char) : Except (List Char) UploadResult :=
  let uniqueName := userId ++ ['/'] ++ uuid ++ ['_'] ++ originalname
  match oc.storageError with
  | some m => .error ("Storage upload failed: ".data ++ m)
  | none => .ok { storagePath := uniqueName, filename := originalname, sizeBytes := size }

end SimpleBackend

/-- The §8 scenario's storage-key pattern `user-123/<uuid>...main.py`
instantiated at an owner and original name: the key is the owner, a
separator, anything, then the original file name. -/
def matchesUploadKeyPattern (owner original key : List Char) : Prop :=
  ∃ mid, key = owner ++ ['/'] ++ mid ++ original

namespace Backend

/-- The exception caught at a controller boundary: a `FileValidationError`
(the only class the richer controller special-cases with `instanceof`),
any other `Error` carrying a message, or a thrown non-`Error` value. -/
inductive Thrown where
  | fileValidationError (msg : List Char)
  | otherError (msg : List Char)
  | nonErrorValue
deriving DecidableEq

/-- The message JavaScript reads off a caught value as
`err instanceof Error ? err.message : 'Upload failed'`. -/
def thrownMessage : Thrown → List Char
  | .fileValidationError m => m
  | .otherError m => m
  | .nonErrorValue => "Upload failed".data

/-- JSON body of a response of the richer controller: either
`{ error: msg }` or the 201 `FileUploadResponse` payload. -/
inductive RicherBody where
  | errJson (msg : List Char)
  | fileJson (id fileName : List Char) (sizeBytes : Nat) (uploadedAt : List Char)
deriving DecidableEq

/-- `handleFileUpload` of `controllers/fileController.ts` (richer
variant) as a function of the authenticated user, the multer file, and
the outcome of the awaited `uploadFile` call (modelled as the caught
exception or the returned record): status code and JSON body. -/
def handleFileUpload (user : Option (List Char)) (file : Option (List Char × Nat))
    (svc : Except Thrown FileRecord) : Nat × RicherBody :=
  match user with
  | none => (401, .errJson "User not authenticated".data)
  | some _ =>
    match file with
    | none => (400, .errJson "No file provided".data)
    | some _ =>
      match svc with
      | .ok r => (201, .fileJson r.id r.fileName r.sizeBytes r.uploadedAt)
      | .error (.fileValidationError m) => (400, .errJson m)
      | .error (.otherError _) => (500, .errJson "Internal server error".data)
      | .error .nonErrorValue => (500, .errJson "Internal server error".data)

end Backend

namespace SimpleBackend

/-- JSON body of a response of the simpler variant's handler: either
`{ error: msg }` or the 201 `{ message, file: {...} }` payload. -/
inductive SimplerBody where
  | errJson (msg : List Char)
  | fileJson (message filename storagePath : List Char) (sizeBytes : Nat)
deriving DecidableEq

/-- `handleFileUpload` of the simpler variant (in the same source file as
`uploadFileToStorage`): on any caught value it answers 500 with
`err instanceof Error ? err.message : 'Upload failed'` — it performs no
categorization of the caught exception. -/
def handleFileUpload (file : Option (List Char × Nat))
    (svc : Except Backend.Thrown UploadResult) : Nat × SimplerBody :=
  match file with
  | none => (400, .errJson "No file provided".data)
  | some _ =>
    match svc with
    | .ok r =>
      (201, .fileJson "File uploaded successfully".data r.filename r.storagePath r.sizeBytes)
    | .error t => (500, .errJson (Backend.thrownMessage t))

end SimpleBackend

namespace Widget

/-- The `UploadState` union of `components/FileUploader.tsx`. -/
inductive UploadState where
  | idle
  | dragging
  | uploading
  | success
  | error
deriving DecidableEq

/-- The `UploadResult` the widget receives from `utils/uploadFile.ts`. -/
structure UploadResultFE where
  filename : List Char
  storagePath : List Char
  sizeBytes : Nat
deriving DecidableEq

/-- The mutable state of one `FileUploader` instance: the five `useState`
values and the `dragCounterRef` (a JavaScript number, so modelled as an
integer — nothing in the handlers prevents it from going negative). -/
structure FEWidget where
  state : UploadState
  progress : Nat
  error : Option (List Char)
  uploadedFile : Option UploadResultFE
  counter : Int
deriving DecidableEq

/-- `handleDragEnter`: increment the counter and enter `dragging` exactly
when it reaches 1. -/
def handleDragEnter (w : FEWidget) : FEWidget :=
  let c := w.counter + 1
  { w with counter := c, state := if c = 1 then .dragging else w.state }

/-- `handleDragLeave`: decrement the counter; when it reaches 0, fall back
to `idle` only if currently `dragging`. -/
def handleDragLeave (w : FEWidget) : FEWidget :=
  let c := w.counter - 1
  { w with counter := c,
           state := if c = 0 then (if w.state = .dragging then .idle else w.state) else w.state }

/-- `processFile`: local validation first — a failure sets the error
message and the `error` state and returns without calling `uploadFile`;
otherwise the upload runs and its final outcome (passed explicitly, since
the transfer is external) decides `success` or `error`.  The returned
`Bool` records whether the network upload function was invoked. -/
def processFile (w : FEWidget) (name : List Char) (size : Nat)
    (outcome : Except (List Char) UploadResultFE) : FEWidget × Bool :=
  match UploadUtil.validatePythonFile name size with
  | some msg => ({ w with error := some msg, state := .error }, false)
  | none =>
    let w1 := { w with error := none, state := .uploading, progress := 0, uploadedFile := none }
    match outcome with
    | .ok r => ({ w1 with uploadedFile := some r, state := .success }, true)
    | .error m => ({ w1 with error := some m, state := .error }, true)

/-- `handleDrop`: unconditionally reset the drag counter to 0, then either
process the first dropped file or report "No file detected". -/
def handleDrop (w : FEWidget) (files : List (List Char × Nat))
    (outcome : Except (List Char) UploadResultFE) : FEWidget × Bool :=
  let w0 := { w with counter := 0 }
  match files.head? with
  | some (name, size) => processFile w0 name size outcome
  | none => ({ w0 with error := some "No file detected".data, state := .error }, false)

/-- A drag event reaching the drop zone's enter/leave handlers. -/
inductive DragEv where
  | enter
  | leave
deriving DecidableEq

/-- Dispatch one drag event to its handler. -/
def dragStep (w : FEWidget) : DragEv → FEWidget
  | .enter => handleDragEnter w
  | .leave => handleDragLeave w

/-- The successive widget states along a sequence of drag events. -/
def dragTrace (w : FEWidget) : List DragEv → List FEWidget
  | [] => []
  | e :: es =>
    let w1 := dragStep w e
    w1 :: dragTrace w1 es

/-- Number of transitions into `idle` along a trace starting after the
given state. -/
def idleEntries : UploadState → List FEWidget → Nat
  | _, [] => 0
  | prev, w :: ws =>
    (if w.state = .idle ∧ prev ≠ .idle then 1 else 0) + idleEntries w.state ws

/-- The widget's initial state: `idle`, zero progress, no error, no
result, drag counter 0. -/
def initialWidget : FEWidget :=
  { state := .idle, progress := 0, error := none, uploadedFile := none, counter := 0 }

/-- The event sequence seen by the drop zone while the pointer enters a
container and crosses three nested children before leaving: each child
boundary fires an enter for the child before the leave of the element
left, and the final exit fires the last leave. -/
def nestedChildrenSeq : List DragEv :=
  [.enter, .enter, .leave, .enter, .leave, .enter, .leave, .leave]

/-- Run a sequence of drag events from a state. -/
def runDrag (w : FEWidget) : List DragEv → FEWidget
  | [] => w
  | e :: es => runDrag (dragStep w e) es

end Widget

namespace Hook

/-- `UploadState` of `hooks/useFileUpload.ts`. -/
structure UploadState where
  isUploading : Bool
  progress : Nat
  error : Option (List Char)
deriving DecidableEq

/-- `FileUploadResponse` of `utils/api.ts`, as stored by the hook. -/
structure FileUploadResponse where
  id : List Char
  fileName : List Char
  sizeBytes : Nat
  uploadedAt : List Char
deriving DecidableEq

/-- The state owned by one `useFileUpload` instance. -/
structure HookState where
  uploadState : UploadState
  uploadedFiles : List FileUploadResponse
deriving DecidableEq

/-- `handleUpload` of `hooks/useFileUpload.ts`: client-side validation
first — a failure stores the message and returns without calling
`uploadPyFile`; otherwise the transfer runs and its final outcome (passed
explicitly) either prepends the response to the list or stores the
failure message.  The returned `Bool` records whether `uploadPyFile` was
invoked. -/
def handleUpload (st : HookState) (name : List Char) (size : Nat)
    (outcome : Except (List Char) FileUploadResponse) : HookState × Bool :=
  match validateClientSide name size with
  | some msg =>
    ({ st with
       uploadState := { isUploading := false, progress := 0, error := some msg.message } },
     false)
  | none =>
    match outcome with
    | .ok r =>
      ({ uploadState := { isUploading := false, progress := 100, error := none },
         uploadedFiles := r :: st.uploadedFiles }, true)
    | .error m =>
      ({ st with uploadState := { isUploading := false, progress := 0, error := some m } }, true)

end Hook



example : Node.extname ".py".data = [] := by decide
example : Node.extname "main.py".data = ".py".data := by decide
example : Node.extname "a.PY".data = ".PY".data := by decide
example : Node.extname "dir/.py".data = [] := by decide
example : Node.extname "..py".data = ".py".data := by decide
example : Node.extname "a.py/".data = ".py".data := by decide
example : Node.extname "noext".data = [] := by decide
example : Backend.validateFile "main.py".data 42 = none := by decide
example : Backend.validateFile ".py".data 42 =
    some (.extensionError "no extension".data) := by decide
example : Backend.validateFile "a.txt".data 0 =
    some (.extensionError ".txt".data) := by decide
example : Hook.validateClientSide ".py".data 42 = none := by decide
example : UploadUtil.validatePythonFile "A.PY".data 42 = none := by decide
example : Hook.validateClientSide "A.PY".data 42 = some .notPy := by decide

/-- Claim C3: `validateFile` checks extension, then the size ceiling, then
non-emptiness, the first failing rule determining the error: a `.py` name
oversize fails with the size error, a `.py` name of 0 bytes fails with the
empty-file error, and a 0-byte name without a `.py` extension fails with
the extension error (extension checked first). -/
theorem validateFile_rule_order (name : List Char) (size : Nat) :
    (toLowerCase (Node.extname name) = Backend.ALLOWED_EXTENSION →
      (Backend.MAX_FILE_SIZE < size →
        Backend.validateFile name size = some (.sizeError size)) ∧
      Backend.validateFile name 0 = some .emptyError) ∧
    (toLowerCase (Node.extname name) ≠ Backend.ALLOWED_EXTENSION →
      Backend.validateFile name 0 =
        some (.extensionError
          (if toLowerCase (Node.extname name) = [] then "no extension".data
           else toLowerCase (Node.extname name)))) := by
  constructor
  · intro hx
    constructor
    · intro hsz
      simp [Backend.validateFile, hx, hsz]
    · simp [Backend.validateFile, hx, Backend.MAX_FILE_SIZE]
  · intro hx
    simp [Backend.validateFile, hx]

/-- Witness for C3 at concrete inputs: an oversize `a.py`, an empty
`a.py`, and an empty `a.txt`. -/
theorem validateFile_rule_order_witness :
    Backend.validateFile "a.py".data 5242881 = some (.sizeError 5242881) ∧
    Backend.validateFile "a.py".data 0 = some .emptyError ∧
    Backend.validateFile "a.txt".data 0 = some (.extensionError ".txt".data) := by
  refine ⟨((validateFile_rule_order "a.py".data 5242881).1 (by decide)).1 (by decide),
          ((validateFile_rule_order "a.py".data 0).1 (by decide)).2,
          ?_⟩
  have h := (validateFile_rule_order "a.txt".data 0).2 (by decide)
  simpa using h

/-- Claim C4: every name whose extension compares case-insensitively equal
to `.py` is accepted by `validateFile` for all sizes with
`0 < size ≤ 5 * 1024 * 1024`; in particular exactly 5,242,880 bytes is
accepted (inclusive bound). -/
theorem validateFile_accepts_valid_py (name : List Char) (size : Nat)
    (hext : toLowerCase (Node.extname name) = Backend.ALLOWED_EXTENSION)
    (h0 : 0 < size) (hmax : size ≤ 5 * 1024 * 1024) :
    Backend.validateFile name size = none ∧
    Backend.validateFile name 5242880 = none := by
  have h1 : ¬ size > Backend.MAX_FILE_SIZE := by
    simp [Backend.MAX_FILE_SIZE]; omega
  have h2 : size ≠ 0 := by omega
  constructor
  · simp [Backend.validateFile, hext, h1, h2]
  · simp [Backend.validateFile, hext, Backend.MAX_FILE_SIZE]

/-- Witness for C4: `main.py` at exactly 5,242,880 bytes is accepted. -/
theorem validateFile_accepts_valid_py_witness :
    Backend.validateFile "main.py".data 5242880 = none :=
  (validateFile_accepts_valid_py "main.py".data 5242880 (by decide) (by decide)
    (by decide)).1

/-- Claim C10: the server rejects the dotfile name `.py` with the
"no extension" variant of the extension error, because `path.extname`
yields the empty string on it, while both suffix-based client validators
accept it (for any in-range size). -/
theorem dotfile_py_server_client_divergence (size : Nat)
    (h0 : 0 < size) (hmax : size ≤ Backend.MAX_FILE_SIZE) :
    Node.extname ".py".data = [] ∧
    Backend.validateFile ".py".data size =
      some (.extensionError "no extension".data) ∧
    Hook.validateClientSide ".py".data size = none ∧
    UploadUtil.validatePythonFile ".py".data size = none := by
  have hx : toLowerCase (Node.extname ".py".data) = [] := by decide
  have hnotpy : toLowerCase (Node.extname ".py".data) ≠ Backend.ALLOWED_EXTENSION := by decide
  have hes : jsEndsWith ".py".data ".py".data = true := by decide
  have hes2 : jsEndsWith (toLowerCase ".py".data) ".py".data = true := by decide
  have h1 : ¬ size > Hook.MAX_FILE_SIZE := by
    simp only [Hook.MAX_FILE_SIZE]; simp only [Backend.MAX_FILE_SIZE] at hmax; omega
  have h1u : ¬ size > UploadUtil.MAX_FILE_SIZE := by
    simp only [UploadUtil.MAX_FILE_SIZE]; simp only [Backend.MAX_FILE_SIZE] at hmax; omega
  have h2 : size ≠ 0 := by omega
  refine ⟨by decide, ?_, ?_, ?_⟩
  · simp [Backend.validateFile, hx,
      show ([] : List Char) ≠ Backend.ALLOWED_EXTENSION from by decide]
  · simp [Hook.validateClientSide, hes, h1, h2]
  · simp [UploadUtil.validatePythonFile, hes2, h1u]

/-- Witness for C10 at size 10. -/
theorem dotfile_py_server_client_divergence_witness :
    Backend.validateFile ".py".data 10 =
      some (.extensionError "no extension".data) ∧
    Hook.validateClientSide ".py".data 10 = none :=
  ⟨(dotfile_py_server_client_divergence 10 (by decide) (by decide)).2.1,
   (dotfile_py_server_client_divergence 10 (by decide) (by decide)).2.2.1⟩

/-- Claim C8: whenever local validation fails, both client widgets move
directly to their error state carrying the validation message and the
network upload function is not invoked. -/
theorem local_validation_failure_skips_upload :
    (∀ (w : Widget.FEWidget) (name : List Char) (size : Nat) (msg : List Char)
        (outcome : Except (List Char) Widget.UploadResultFE),
      UploadUtil.validatePythonFile name size = some msg →
      Widget.processFile w name size outcome =
        ({ w with error := some msg, state := .error }, false)) ∧
    (∀ (st : Hook.HookState) (name : List Char) (size : Nat) (msg : Hook.ClientError)
        (outcome : Except (List Char) Hook.FileUploadResponse),
      Hook.validateClientSide name size = some msg →
      Hook.handleUpload st name size outcome =
        ({ st with uploadState :=
            { isUploading := false, progress := 0, error := some msg.message } }, false)) := by
  constructor
  · intro w name size msg outcome h
    simp [Widget.processFile, h]
  · intro st name size msg outcome h
    simp [Hook.handleUpload, h]

/-- Witness for C8: dropping `notes.txt` (10 bytes) errors out in both
widgets with the extension message and no network call. -/
theorem local_validation_failure_skips_upload_witness :
    Widget.processFile Widget.initialWidget "notes.txt".data 10
        (.error "unreached".data) =
      ({ Widget.initialWidget with
          error := some "Only .py files are allowed".data, state := .error }, false) ∧
    Hook.handleUpload ⟨⟨false, 0, none⟩, []⟩ "notes.txt".data 10
        (.error "unreached".data) =
      ({ uploadState :=
          { isUploading := false, progress := 0,
            error := some Hook.ClientError.notPy.message },
         uploadedFiles := [] }, false) :=
  ⟨local_validation_failure_skips_upload.1 Widget.initialWidget "notes.txt".data 10
      "Only .py files are allowed".data (.error "unreached".data) (by decide),
   local_validation_failure_skips_upload.2 ⟨⟨false, 0, none⟩, []⟩ "notes.txt".data 10
      .notPy (.error "unreached".data) (by decide)⟩

/-- Claim C7: the drag counter is reference-counted — the widget enters
`dragging` only on an enter moving the counter 0→1, returns to `idle` only
on a leave moving it 1→0, a drop resets the counter to 0 unconditionally,
and the eight enter/leave events of crossing three nested children end in
`idle` having entered it exactly once. -/
theorem drag_counter_reference_counted :
    (∀ w : Widget.FEWidget, (Widget.handleDragEnter w).state ≠ w.state →
      w.counter = 0 ∧ (Widget.handleDragEnter w).state = .dragging ∧
      (Widget.handleDragEnter w).counter = 1) ∧
    (∀ w : Widget.FEWidget, (Widget.handleDragLeave w).state ≠ w.state →
      w.counter = 1 ∧ w.state = .dragging ∧
      (Widget.handleDragLeave w).state = .idle ∧ (Widget.handleDragLeave w).counter = 0) ∧
    (∀ (w : Widget.FEWidget) (files : List (List Char × Nat))
        (outcome : Except (List Char) Widget.UploadResultFE),
      (Widget.handleDrop w files outcome).1.counter = 0) ∧
    ((Widget.runDrag Widget.initialWidget Widget.nestedChildrenSeq).state = .idle ∧
     Widget.idleEntries Widget.initialWidget.state
       (Widget.dragTrace Widget.initialWidget Widget.nestedChildrenSeq) = 1) := by
  refine ⟨?_, ?_, ?_, by decide, by decide⟩
  · intro w h
    by_cases hc : w.counter + 1 = 1
    · refine ⟨by omega, ?_, ?_⟩ <;> simp [Widget.handleDragEnter, hc]
    · exact absurd (by simp [Widget.handleDragEnter, hc]) h
  · intro w h
    by_cases hc : w.counter - 1 = 0
    · by_cases hd : w.state = Widget.UploadState.dragging
      · refine ⟨by omega, hd, ?_, ?_⟩ <;> simp [Widget.handleDragLeave, hc, hd]
      · exact absurd (by simp [Widget.handleDragLeave, hc, hd]) h
    · exact absurd (by simp [Widget.handleDragLeave, hc]) h
  · intro w files outcome
    rcases files with _ | ⟨⟨name, size⟩, rest⟩
    · simp [Widget.handleDrop]
    · simp only [Widget.handleDrop, List.head?]
      rcases hv : UploadUtil.validatePythonFile name size with _ | msg
      · rcases outcome with m | r <;> simp [Widget.processFile, hv]
      · simp [Widget.processFile, hv]

/-- Witness for C7: the first enter from the initial state transitions to
`dragging` with counter 1. -/
theorem drag_counter_reference_counted_witness :
    Widget.initialWidget.counter = 0 ∧
    (Widget.handleDragEnter Widget.initialWidget).state = .dragging ∧
    (Widget.handleDragEnter Widget.initialWidget).counter = 1 :=
  drag_counter_reference_counted.1 Widget.initialWidget (by decide)

/-- Claim C5: when the blob transfer fails, `uploadFile` throws the
storage error and performs no metadata insert — the trace holds only the
failed storage upload, so no metadata record referencing the upload is
ever created. -/
theorem storage_failure_stops_before_metadata
    (be : Backend.BackendOutcome) (uniqueId userId name : List Char) (len : Nat)
    (msg : List Char)
    (hv : Backend.validateFile name len = none)
    (hs : be.storageError = some msg) :
    (Backend.uploadFile be uniqueId userId name len).1 = .error (.storage msg) ∧
    (Backend.uploadFile be uniqueId userId name len).2 =
      [.storageUpload (Backend.storagePathFor userId uniqueId name)] ∧
    ∀ i u f p s, Backend.Action.dbInsert i u f p s ∉
      (Backend.uploadFile be uniqueId userId name len).2 := by
  refine ⟨?_, ?_, ?_⟩ <;> simp [Backend.uploadFile, hv, hs]

/-- Witness for C5 at a concrete failing transfer. -/
theorem storage_failure_stops_before_metadata_witness :
    (Backend.uploadFile
        { storageError := some "Bucket not found".data, dbError := none,
          removeError := none, uploadedAt := [] }
        "u1".data "user-123".data "main.py".data 42).1 =
      .error (.storage "Bucket not found".data) :=
  (storage_failure_stops_before_metadata
    { storageError := some "Bucket not found".data, dbError := none,
      removeError := none, uploadedAt := [] }
    "u1".data "user-123".data "main.py".data 42 "Bucket not found".data
    (by decide) rfl).1

/-- Claim C2: when the blob transfer succeeds but the metadata insert
fails, `uploadFile` attempts the compensating delete of the just-written
blob, never consults the delete's own outcome (so its failure is not
escalated), and throws the database error — not a storage error — to the
caller. -/
theorem metadata_failure_compensates
    (be : Backend.BackendOutcome) (uniqueId userId name : List Char) (len : Nat)
    (msg : List Char)
    (hv : Backend.validateFile name len = none)
    (hs : be.storageError = none)
    (hd : be.dbError = some msg) :
    (Backend.uploadFile be uniqueId userId name len).1 = .error (.database msg) ∧
    (Backend.uploadFile be uniqueId userId name len).2 =
      [.storageUpload (Backend.storagePathFor userId uniqueId name),
       .dbInsert uniqueId userId name (Backend.storagePathFor userId uniqueId name) len,
       .storageRemove (Backend.storagePathFor userId uniqueId name)] ∧
    ∀ r₁ r₂ : Option (List Char),
      Backend.uploadFile { be with removeError := r₁ } uniqueId userId name len =
        Backend.uploadFile { be with removeError := r₂ } uniqueId userId name len := by
  refine ⟨?_, ?_, ?_⟩ <;> simp [Backend.uploadFile, hv, hs, hd]

/-- Witness for C2 at a concrete failing insert. -/
theorem metadata_failure_compensates_witness :
    (Backend.uploadFile
        { storageError := none, dbError := some "duplicate key".data,
          removeError := some "object not found".data, uploadedAt := [] }
        "u1".data "user-123".data "main.py".data 42).1 =
      .error (.database "duplicate key".data) :=
  (metadata_failure_compensates
    { storageError := none, dbError := some "duplicate key".data,
      removeError := some "object not found".data, uploadedAt := [] }
    "u1".data "user-123".data "main.py".data 42 "duplicate key".data
    (by decide) rfl rfl).1

/-- Counterexample to C9 as stated: the simpler variant's upload handler
forwards a caught internal (non-validation) exception's message verbatim
as the `{ error: ... }` body of its 500 response. -/
theorem simpler_handler_leaks_internal_message :
    SimpleBackend.handleFileUpload (some ("main.py".data, 42))
        (.error (.otherError "connect ECONNREFUSED 127.0.0.1:54321".data)) =
      (500, .errJson "connect ECONNREFUSED 127.0.0.1:54321".data) := rfl

/-- Claim C9 amended: every non-201 response of either upload handler has
the `{ error: <message> }` shape, and the richer controller never sends an
internal (non-validation) exception's message verbatim — every such
exception maps to the categorized "Internal server error" body; the
simpler variant's handler, by contrast, sends any caught `Error`'s message
verbatim. -/
theorem boundary_error_shape_and_categorization :
    (∀ (user : Option (List Char)) (file : Option (List Char × Nat))
        (svc : Except Backend.Thrown Backend.FileRecord),
      (Backend.handleFileUpload user file svc).1 ≠ 201 →
      ∃ m, (Backend.handleFileUpload user file svc).2 = .errJson m) ∧
    (∀ (user : List Char) (file : List Char × Nat) (m : List Char),
      Backend.handleFileUpload (some user) (some file) (.error (.otherError m)) =
        (500, .errJson "Internal server error".data)) ∧
    (∀ (file : Option (List Char × Nat))
        (svc : Except Backend.Thrown SimpleBackend.UploadResult),
      (SimpleBackend.handleFileUpload file svc).1 ≠ 201 →
      ∃ m, (SimpleBackend.handleFileUpload file svc).2 = .errJson m) := by
  refine ⟨?_, ?_, ?_⟩
  · rintro (_ | u) (_ | f) (⟨(m | m | _)⟩ | r) h <;>
      simp [Backend.handleFileUpload] at h ⊢
  · intro user file m
    rfl
  · rintro (_ | f) (⟨t⟩ | r) h <;>
      simp [SimpleBackend.handleFileUpload] at h ⊢

/-- Witness for C9 (amended) at concrete inputs: a validation failure gets
its message in an error-shaped body, an internal exception gets the
categorized message. -/
theorem boundary_error_shape_witness :
    (∃ m, (Backend.handleFileUpload (some "user-123".data)
        (some ("main.py".data, 42))
        (.error (.fileValidationError "File is empty".data))).2 = .errJson m) ∧
    Backend.handleFileUpload (some "user-123".data) (some ("main.py".data, 42))
        (.error (.otherError "stack trace".data)) =
      (500, .errJson "Internal server error".data) :=
  ⟨boundary_error_shape_and_categorization.1 (some "user-123".data)
      (some ("main.py".data, 42))
      (.error (.fileValidationError "File is empty".data)) (by decide),
   boundary_error_shape_and_categorization.2.1 "user-123".data ("main.py".data, 42)
      "stack trace".data⟩

/-- Counterexample to C6 as stated: the richer variant's computed storage
key for `main.py` / owner `user-123` (uuid `u`) is `user-123/u.py` — it
embeds only the extension, not the original file name, so it does not
match the pattern `user-123/<...>main.py`. -/
theorem richer_key_omits_original_name :
    (Backend.uploadFile
        { storageError := none, dbError := none, removeError := none,
          uploadedAt := "2026-02-27T00:00:00Z".data }
        "u".data "user-123".data "main.py".data 42).1 =
      .ok { id := "u".data, userId := "user-123".data, fileName := "main.py".data,
            storagePath := "user-123/u.py".data, sizeBytes := 42,
            uploadedAt := "2026-02-27T00:00:00Z".data } ∧
    ¬ matchesUploadKeyPattern "user-123".data "main.py".data "user-123/u.py".data := by
  constructor
  · rfl
  · rintro ⟨mid, h⟩
    have hsuf : "main.py".data <:+ "user-123/u.py".data := by
      rw [h]; exact List.suffix_append _ _
    exact absurd hsuf (by decide)

/-- Claim C6 amended: uploading `main.py` (42 bytes) as `user-123` reports
`sizeBytes = 42` in both variants; the simpler variant's storage key is
`user-123/<uuid>_main.py`, which matches the `user-123/<...>main.py`
pattern (owner, unique id and full original name), while the richer
variant's key is `user-123/<uuid>.py`, embedding owner, unique id and only
the original name's extension. -/
theorem upload_scenario_main_py_keys (uuid : List Char)
    (oc : SimpleBackend.SimpleOutcome) (be : Backend.BackendOutcome)
    (hoc : oc.storageError = none)
    (hbs : be.storageError = none) (hbd : be.dbError = none) :
    SimpleBackend.uploadFileToStorage oc uuid "main.py".data 42 "user-123".data =
      .ok { storagePath := "user-123".data ++ ['/'] ++ uuid ++ ['_'] ++ "main.py".data,
            filename := "main.py".data, sizeBytes := 42 } ∧
    matchesUploadKeyPattern "user-123".data "main.py".data
      ("user-123".data ++ ['/'] ++ uuid ++ ['_'] ++ "main.py".data) ∧
    (Backend.uploadFile be uuid "user-123".data "main.py".data 42).1 =
      .ok { id := uuid, userId := "user-123".data, fileName := "main.py".data,
            storagePath := "user-123".data ++ ['/'] ++ uuid ++ ".py".data,
            sizeBytes := 42, uploadedAt := be.uploadedAt } := by
  refine ⟨?_, ⟨uuid ++ ['_'], by simp⟩, ?_⟩
  · simp [SimpleBackend.uploadFileToStorage, hoc]
  · simp [Backend.uploadFile, Backend.storagePathFor, hbs, hbd,
      show Backend.validateFile "main.py".data 42 = none from by decide,
      show Node.extname "main.py".data = ".py".data from by decide]

/-- Witness for C6 (amended) at a concrete uuid and all-success SDK
outcomes. -/
theorem upload_scenario_main_py_keys_witness :
    SimpleBackend.uploadFileToStorage ⟨none⟩ "u1".data "main.py".data 42
        "user-123".data =
      .ok { storagePath := "user-123".data ++ ['/'] ++ "u1".data ++ ['_'] ++ "main.py".data,
            filename := "main.py".data, sizeBytes := 42 } :=
  (upload_scenario_main_py_keys "u1".data ⟨none⟩
    { storageError := none, dbError := none, removeError := none, uploadedAt := [] }
    rfl rfl rfl).1

/-- Unfolding of one scan step of `extnameLoop`. -/
theorem extnameLoop_succ (cs : List Char) (i : Nat) (st : Node.ExtState) :
    Node.extnameLoop cs (i + 1) st =
      if cs.getD i ' ' = '/' then
        (if st.matchedSlash then Node.extnameLoop cs i st
         else { st with startPart := (i : Int) + 1 })
      else Node.extnameLoop cs i (Node.extStep i (cs.getD i ' ') st) := rfl

/-- Once a dot and an end have been recorded and a real character has been
seen past the dot, one scan step keeps `startDot` and `endIdx` and keeps
`preDotState` in `{-1, 1}`. -/
theorem extStep_invariant (i : Nat) (c : Char) (st : Node.ExtState)
    (hd : st.startDot ≠ -1) (he : st.endIdx ≠ -1)
    (_hp : st.preDotState = -1 ∨ st.preDotState = 1) :
    (Node.extStep i c st).startDot = st.startDot ∧
    (Node.extStep i c st).endIdx = st.endIdx ∧
    ((Node.extStep i c st).preDotState = -1 ∨ (Node.extStep i c st).preDotState = 1) := by
  unfold Node.extStep
  by_cases hc : c = '.'
  · by_cases h1 : st.preDotState = 1 <;> simp [he, hc, hd, h1]
  · simp [he, hc, hd]

/-- The scan-loop invariant: from a state with a recorded dot, a recorded
end, and `preDotState ∈ {-1, 1}`, the remaining scan preserves `startDot`
and `endIdx` and keeps `preDotState` in `{-1, 1}`. -/
theorem extnameLoop_invariant (cs : List Char) (i : Nat) (st : Node.ExtState)
    (hd : st.startDot ≠ -1) (he : st.endIdx ≠ -1)
    (hp : st.preDotState = -1 ∨ st.preDotState = 1) :
    (Node.extnameLoop cs i st).startDot = st.startDot ∧
    (Node.extnameLoop cs i st).endIdx = st.endIdx ∧
    ((Node.extnameLoop cs i st).preDotState = -1 ∨
      (Node.extnameLoop cs i st).preDotState = 1) := by
  induction i generalizing st with
  | zero => exact ⟨rfl, rfl, hp⟩
  | succ i ih =>
    rw [extnameLoop_succ]
    by_cases hc : cs.getD i ' ' = '/'
    · rw [if_pos hc]
      by_cases hm : st.matchedSlash
      · rw [if_pos hm]
        exact ih st hd he hp
      · rw [if_neg hm]
        exact ⟨rfl, rfl, hp⟩
    · rw [if_neg hc]
      obtain ⟨h1, h2, h3⟩ := extStep_invariant i (cs.getD i ' ') st hd he hp
      obtain ⟨g1, g2, g3⟩ :=
        ih (Node.extStep i (cs.getD i ' ') st) (by rw [h1]; exact hd) (by rw [h2]; exact he) h3
      exact ⟨g1.trans h1, g2.trans h2, g3⟩

/-- Key extension lemma: for any nonempty `b` not ending in `'/'`, Node's
`path.extname` of `b ++ ".py"` is `".py"`.  (The excluded cases really do
differ: `extname ".py" = ""` and `extname "dir/.py" = ""`.) -/
theorem extname_concat_py (b : List Char) (hb : b ≠ []) (hs : b.getLast? ≠ some '/') :
    Node.extname (b ++ ".py".data) = ".py".data := by
  obtain ⟨b', c, hbc⟩ := (List.eq_nil_or_concat b).resolve_left hb
  rw [List.concat_eq_append] at hbc
  subst hbc
  rw [show (".py".data : List Char) = ['.', 'p', 'y'] from rfl]
  have hc : c ≠ '/' := by
    rw [List.getLast?_concat] at hs
    simpa using hs
  set m := b'.length with hm
  have e1 : (b' ++ [c]).length = m + 1 := by simp [hm]
  have hlen : ((b' ++ [c]) ++ ['.', 'p', 'y']).length = (m + 3) + 1 := by
    simp [List.length_append]
  have hg3 : ((b' ++ [c]) ++ ['.', 'p', 'y']).getD (m + 3) ' ' = 'y' := by
    rw [List.getD_append_right _ _ _ _ (by rw [e1]; omega), e1,
      show m + 3 - (m + 1) = 2 from by omega]
    decide
  have hg2 : ((b' ++ [c]) ++ ['.', 'p', 'y']).getD (m + 2) ' ' = 'p' := by
    rw [List.getD_append_right _ _ _ _ (by rw [e1]; omega), e1,
      show m + 2 - (m + 1) = 1 from by omega]
    decide
  have hg1 : ((b' ++ [c]) ++ ['.', 'p', 'y']).getD (m + 1) ' ' = '.' := by
    rw [List.getD_append_right _ _ _ _ e1.le, e1,
      show m + 1 - (m + 1) = 0 from by omega]
    decide
  have hg0 : ((b' ++ [c]) ++ ['.', 'p', 'y']).getD m ' ' = c := by
    rw [List.append_assoc, List.getD_append_right _ _ _ _ (by omega),
      show m - b'.length = 0 from by omega]
    rfl
  have hne4 : ((m : Int) + 4) ≠ -1 := by omega
  have hstep1 : Node.extStep (m + 3) 'y'
      { startDot := -1, startPart := 0, endIdx := -1, matchedSlash := true,
        preDotState := 0 } =
      { startDot := -1, startPart := 0, endIdx := (m : Int) + 4, matchedSlash := false,
        preDotState := 0 } := by
    simp [Node.extStep, show ¬ ('y' = '.') from by decide]
    omega
  have hstep2 : Node.extStep (m + 2) 'p'
      { startDot := -1, startPart := 0, endIdx := (m : Int) + 4, matchedSlash := false,
        preDotState := 0 } =
      { startDot := -1, startPart := 0, endIdx := (m : Int) + 4, matchedSlash := false,
        preDotState := 0 } := by
    simp [Node.extStep, show ¬ ('p' = '.') from by decide, hne4]
  have hstep3 : Node.extStep (m + 1) '.'
      { startDot := -1, startPart := 0, endIdx := (m : Int) + 4, matchedSlash := false,
        preDotState := 0 } =
      { startDot := (m : Int) + 1, startPart := 0, endIdx := (m : Int) + 4,
        matchedSlash := false, preDotState := 0 } := by
    simp [Node.extStep, hne4]
  have hcd : (Node.extStep m c
        { startDot := (m : Int) + 1, startPart := 0, endIdx := (m : Int) + 4,
          matchedSlash := false, preDotState := 0 }).startDot = (m : Int) + 1 ∧
      (Node.extStep m c
        { startDot := (m : Int) + 1, startPart := 0, endIdx := (m : Int) + 4,
          matchedSlash := false, preDotState := 0 }).endIdx = (m : Int) + 4 ∧
      ((Node.extStep m c
        { startDot := (m : Int) + 1, startPart := 0, endIdx := (m : Int) + 4,
          matchedSlash := false, preDotState := 0 }).preDotState = -1 ∨
       (Node.extStep m c
        { startDot := (m : Int) + 1, startPart := 0, endIdx := (m : Int) + 4,
          matchedSlash := false, preDotState := 0 }).preDotState = 1) := by
    have hne1 : ((m : Int) + 1) ≠ -1 := by omega
    by_cases hdot : c = '.'
    · simp [Node.extStep, hdot, hne4, hne1]
    · simp [Node.extStep, hdot, hne4, hne1]
  obtain ⟨f1, f2, f3⟩ :=
    extnameLoop_invariant ((b' ++ [c]) ++ ['.', 'p', 'y']) m
      (Node.extStep m c
        { startDot := (m : Int) + 1, startPart := 0, endIdx := (m : Int) + 4,
          matchedSlash := false, preDotState := 0 })
      (by rw [hcd.1]; omega) (by rw [hcd.2.1]; omega) hcd.2.2
  rw [hcd.1] at f1
  rw [hcd.2.1] at f2
  simp only [Node.extname]
  rw [hlen, extnameLoop_succ, hg3, if_neg (show ¬ ('y' = '/') from by decide), hstep1]
  rw [show (m + 3 : Nat) = (m + 2) + 1 from by omega, extnameLoop_succ, hg2,
    if_neg (show ¬ ('p' = '/') from by decide), hstep2]
  rw [show (m + 2 : Nat) = (m + 1) + 1 from by omega, extnameLoop_succ, hg1,
    if_neg (show ¬ ('.' = '/') from by decide), hstep3]
  rw [extnameLoop_succ, hg0, if_neg hc]
  rw [if_neg]
  · rw [f1, f2, show ((m : Int) + 1).toNat = m + 1 from by omega,
      show ((m : Int) + 4).toNat = m + 4 from by omega,
      show m + 4 - (m + 1) = 3 from by omega,
      show (m + 1 : Nat) = (b' ++ [c]).length from by rw [e1], List.drop_left]
    decide
  · rintro (h | h | h | ⟨h1, h2, h3⟩)
    · rw [f1] at h; omega
    · rw [f2] at h; omega
    · rcases f3 with h3 | h3 <;> omega
    · rw [f1, f2] at h2
      omega

/-- Counterexample to C1 as stated: for the dotfile name `.py` at 10
bytes, the server's `validateFile` rejects while `validateClientSide`
accepts — the accept/reject outcomes are not equal — and
`validatePythonFile` accepts it too. -/
theorem client_server_validators_disagree :
    ¬ ((Backend.validateFile ".py".data 10 = none) ↔
        (Hook.validateClientSide ".py".data 10 = none)) ∧
    UploadUtil.validatePythonFile ".py".data 10 = none := by
  constructor
  · decide
  · decide

/-- Claim C1 amended: the client and server validators agree in outcome —
acceptance, and on rejection the violated rule — for every name of the
form `base ++ ".py"` with `base` nonempty and not ending in `'/'`; for
`validatePythonFile`, which omits the emptiness rule, agreement
additionally requires `sizeBytes > 0`.  (Outside this domain they
diverge: the server rejects the bare dotfile `.py` that both clients
accept, and accepts upper-case `.PY` names that the case-sensitive
`validateClientSide` rejects.) -/
theorem validators_agree_on_py_names (b : List Char) (size : Nat)
    (hb : b ≠ []) (hs : b.getLast? ≠ some '/') :
    serverRule (Backend.validateFile (b ++ ".py".data) size) =
      clientSideRule (Hook.validateClientSide (b ++ ".py".data) size) ∧
    (0 < size →
      serverRule (Backend.validateFile (b ++ ".py".data) size) =
        pyFileMsgRule (UploadUtil.validatePythonFile (b ++ ".py".data) size)) := by
  have hext : toLowerCase (Node.extname (b ++ ".py".data)) = Backend.ALLOWED_EXTENSION := by
    rw [extname_concat_py b hb hs]
    decide
  have hsuf : jsEndsWith (b ++ ".py".data) ".py".data = true := by
    unfold jsEndsWith
    exact decide_eq_true (List.suffix_append b ".py".data)
  have hlow : toLowerCase (b ++ ".py".data) = toLowerCase b ++ ".py".data := by
    unfold toLowerCase
    rw [List.map_append, show List.map Char.toLower ".py".data = ".py".data from by decide]
  have hsuf2 : jsEndsWith (toLowerCase (b ++ ".py".data)) ".py".data = true := by
    rw [hlow]
    unfold jsEndsWith
    exact decide_eq_true (List.suffix_append _ _)
  by_cases h0 : size = 0
  · subst h0
    have hsrv0 : Backend.validateFile (b ++ ".py".data) 0 = some .emptyError := by
      unfold Backend.validateFile
      rw [hext]
      simp [show ¬ (0 > Backend.MAX_FILE_SIZE) from by decide]
    have hcl0 : Hook.validateClientSide (b ++ ".py".data) 0 = some .empty := by
      unfold Hook.validateClientSide
      rw [hsuf]
      simp [show ¬ (0 > Hook.MAX_FILE_SIZE) from by decide]
    exact ⟨by rw [hsrv0, hcl0]; rfl, fun h => absurd h (by decide)⟩
  · rcases Nat.lt_or_ge 5242880 size with hbig | hle
    · have hsrv : Backend.validateFile (b ++ ".py".data) size = some (.sizeError size) := by
        unfold Backend.validateFile
        rw [hext]
        simp [show size > Backend.MAX_FILE_SIZE from hbig]
      have hcl : Hook.validateClientSide (b ++ ".py".data) size = some (.tooLarge size) := by
        unfold Hook.validateClientSide
        rw [hsuf]
        simp [show size > Hook.MAX_FILE_SIZE from hbig]
      have hpf : UploadUtil.validatePythonFile (b ++ ".py".data) size =
          some "File size must be 5 MB or less".data := by
        unfold UploadUtil.validatePythonFile
        rw [hsuf2]
        simp [show size > UploadUtil.MAX_FILE_SIZE from hbig]
      exact ⟨by rw [hsrv, hcl]; rfl, fun _ => by rw [hsrv, hpf]; rfl⟩
    · have hsrv : Backend.validateFile (b ++ ".py".data) size = none := by
        unfold Backend.validateFile
        rw [hext]
        simp [show ¬ (size > Backend.MAX_FILE_SIZE) from Nat.not_lt.mpr hle, h0]
      have hcl : Hook.validateClientSide (b ++ ".py".data) size = none := by
        unfold Hook.validateClientSide
        rw [hsuf]
        simp [show ¬ (size > Hook.MAX_FILE_SIZE) from Nat.not_lt.mpr hle, h0]
      have hpf : UploadUtil.validatePythonFile (b ++ ".py".data) size = none := by
        unfold UploadUtil.validatePythonFile
        rw [hsuf2]
        simp [show ¬ (size > UploadUtil.MAX_FILE_SIZE) from Nat.not_lt.mpr hle]
      exact ⟨by rw [hsrv, hcl]; rfl, fun _ => by rw [hsrv, hpf]; rfl⟩

/-- Witness for C1 (amended) at `main.py`, 42 bytes. -/
theorem validators_agree_on_py_names_witness :
    serverRule (Backend.validateFile ("main".data ++ ".py".data) 42) =
      clientSideRule (Hook.validateClientSide ("main".data ++ ".py".data) 42) :=
  (validators_agree_on_py_names "main".data 42 (by decide) (by decide)).1
